import Mathlib

/-!
Shallow embedding of the bibliographic entity-resolution code of the
`bestskrellerz` repository (modules `wikidata.py` and `series_enrichment.py`),
together with theorems settling the frozen claims about it.

Strings are modelled as `List Char`.  Python regular-expression operations are
modelled by executable Lean functions mirroring the exact semantics of the
regexes appearing in the source (leftmost match, greedy and non-greedy
quantifiers, `.` not matching a newline, `$` at end of string).
-/

deriving instance DecidableEq for Except

/-- Characters treated as whitespace by Python's `str.strip`, `str.split` and
the regex class `\s` (ASCII range, which covers all inputs considered here). -/
def isPySpace (c : Char) : Bool :=
  c = ' ' || c = '\t' || c = '\n' || c = '\r' || c = '\x0b' || c = '\x0c'

/-- Convenience: the character list of a string literal. -/
def chars (s : String) : List Char := s.toList

/-- Drop trailing whitespace. -/
def dropTrailingWS (l : List Char) : List Char :=
  (l.reverse.dropWhile isPySpace).reverse

/-- Python `str.strip()`: drop leading and trailing whitespace. -/
def pyStrip (l : List Char) : List Char :=
  dropTrailingWS (l.dropWhile isPySpace)

/-- Python `s.split("/")[-1]`: the part after the last slash (the whole string
when no slash occurs). -/
def lastSlashComponent (l : List Char) : List Char :=
  (l.reverse.takeWhile (fun c => c ≠ '/')).reverse

/-- Case-insensitive prefix removal: given `w` (already lowercase), if `l`
starts with `w` up to `Char.toLower`, return the remainder. -/
def dropPrefixCI : List Char → List Char → Option (List Char)
  | [], l => some l
  | _ :: _, [] => none
  | a :: as, c :: cs => if c.toLower = a then dropPrefixCI as cs else none

/-- Lowercase a character list (Python `str.lower`, ASCII behaviour). -/
def lowerL (l : List Char) : List Char := l.map Char.toLower

namespace Wikidata

/-- Matcher for `re.sub(r'\s*\(.*?\)\s*$', '', title)` at a given start index:
from index `i`, a run of whitespace, then `'('`, then (per `.*?` and `$`) a
closing `')'` reachable without crossing a newline such that everything after
it is whitespace up to the end of the string. -/
def parenCloseCheck : List Char → Bool
  | [] => false
  | c :: rest =>
    (decide (c = ')') && rest.all isPySpace) ||
    (decide (c ≠ '\n') && parenCloseCheck rest)

/-- Whether the trailing-parenthetical regex matches starting at index `i`. -/
def matchParenAt (l : List Char) (i : Nat) : Bool :=
  match (l.drop i).dropWhile isPySpace with
  | '(' :: rest => parenCloseCheck rest
  | _ => false

/-- `re.sub(r'\s*\(.*?\)\s*$', '', title)`: delete the leftmost match, which
necessarily extends to the end of the string. -/
def stripTrailingParen (l : List Char) : List Char :=
  match (List.range l.length).find? (fun i => matchParenAt l i) with
  | some i => l.take i
  | none => l

/-- One alternative of `re.sub(r'^(The|A|An)\s+', '', title, flags=IGNORECASE)`:
match the word `w` case-insensitively at the start, require at least one
whitespace character after it, and drop the word together with the whole
whitespace run (greedy `\s+`). -/
def articleTry (w : List Char) (l : List Char) : Option (List Char) :=
  match dropPrefixCI w l with
  | some rest =>
    match rest with
    | c :: _ => if isPySpace c then some (rest.dropWhile isPySpace) else none
    | [] => none
  | none => none

/-- `re.sub(r'^(The|A|An)\s+', '', title, flags=re.IGNORECASE)`: alternatives
tried in the pattern's order. -/
def stripLeadingArticle (l : List Char) : List Char :=
  match articleTry (chars "the") l with
  | some r => r
  | none =>
    match articleTry (chars "a") l with
    | some r => r
    | none =>
      match articleTry (chars "an") l with
      | some r => r
      | none => l

/-- `wikidata.normalize_title`: subtitle truncation at the first colon (with
`strip`), trailing-parenthetical removal, leading-article removal, final
`strip`. -/
def normalize_title (l : List Char) : List Char :=
  pyStrip (stripLeadingArticle (stripTrailingParen
    (pyStrip (l.takeWhile (fun c => c ≠ ':')))))

/-- Python `str.split()` with no argument: words separated by whitespace runs,
no empty words.  `acc` accumulates the current word in reverse. -/
def splitWSAux : List Char → List Char → List (List Char)
  | [], acc => if acc.isEmpty then [] else [acc.reverse]
  | c :: cs, acc =>
    if isPySpace c then
      if acc.isEmpty then splitWSAux cs [] else acc.reverse :: splitWSAux cs []
    else splitWSAux cs (c :: acc)

def splitWS (l : List Char) : List (List Char) := splitWSAux l []

/-- Python `str.capitalize()` on an already-lowercased word: uppercase the
first character. -/
def capitalizeWord : List Char → List Char
  | [] => []
  | c :: cs => c.toUpper :: cs

/-- The closed set of lowercase "small words" of `to_title_case`. -/
def small_words : List (List Char) :=
  [chars "a", chars "an", chars "the", chars "and", chars "but", chars "or",
   chars "for", chars "nor", chars "on", chars "at", chars "to", chars "by",
   chars "of", chars "in", chars "with", chars "from", chars "into", chars "as"]

/-- `wikidata.to_title_case`: lowercase, split into words, capitalize each word
except non-initial small words, join with single spaces. -/
def to_title_case (l : List Char) : List Char :=
  let ws := splitWS (lowerL l)
  List.intercalate [' ']
    (ws.mapIdx (fun i w =>
      if i = 0 ∨ ¬ w ∈ small_words then capitalizeWord w else w))

/-- The `TITLE_VARIATIONS` table of US/UK spelling pairs. -/
def TITLE_VARIATIONS : List (List Char × List Char) :=
  [(chars "Sorcerer\x27s Stone", chars "Philosopher\x27s Stone"),
   (chars "Sorcerers Stone", chars "Philosopher\x27s Stone"),
   (chars "Color", chars "Colour"),
   (chars "Favorite", chars "Favourite"),
   (chars "Honor", chars "Honour"),
   (chars "Traveling", chars "Travelling"),
   (chars "Canceled", chars "Cancelled")]

/-- Exact prefix test on character lists. -/
def hasPrefixB : List Char → List Char → Bool
  | [], _ => true
  | _ :: _, [] => false
  | a :: as, c :: cs => decide (a = c) && hasPrefixB as cs

/-- Python's `sub in s` substring test. -/
def hasInfixB (sub : List Char) : List Char → Bool
  | [] => sub.isEmpty
  | c :: cs => hasPrefixB sub (c :: cs) || hasInfixB sub cs

/-- `re.sub(re.escape(pat), repl, l, flags=re.IGNORECASE)` for a literal
pattern: replace every non-overlapping occurrence left to right,
case-insensitively.  `pat` is passed lowercased; fuel is the input length
(sufficient, as each step consumes at least one input character). -/
def replaceAllCIAux (pat repl : List Char) : Nat → List Char → List Char
  | 0, l => l
  | _ + 1, [] => []
  | n + 1, c :: cs =>
    match dropPrefixCI pat (c :: cs) with
    | some rest => repl ++ replaceAllCIAux pat repl n rest
    | none => c :: replaceAllCIAux pat repl n cs

def replaceAllCI (pat repl l : List Char) : List Char :=
  replaceAllCIAux (lowerL pat) repl l.length l

/-- The substitution entries generated from the variation table for a title:
for each table entry, the substitution in each direction whenever the source
side occurs case-insensitively as a substring. -/
def variationSubsts (title : List Char) : List (List Char) :=
  TITLE_VARIATIONS.flatMap (fun p =>
    (if hasInfixB (lowerL p.1) (lowerL title)
     then [replaceAllCI p.1 p.2 title] else []) ++
    (if hasInfixB (lowerL p.2) (lowerL title)
     then [replaceAllCI p.2 p.1 title] else []))

/-- `wikidata.get_title_variations`: the title itself first, then the table
substitutions. -/
def get_title_variations (title : List Char) : List (List Char) :=
  title :: variationSubsts title

end Wikidata

/-- Digit run with optional single underscores between digits, as accepted by
Python's `int(str)`; `prevDigit` records whether the previous character was a
digit (the run must start and end with a digit and underscores may not repeat). -/
def digitsValAux : List Char → Bool → Nat → Option Nat
  | [], prevDigit, acc => if prevDigit then some acc else none
  | c :: cs, prevDigit, acc =>
    if c.isDigit then digitsValAux cs true (acc * 10 + (c.toNat - 48))
    else if c = '_' then
      if prevDigit then digitsValAux cs false acc else none
    else none

def digitsVal (l : List Char) : Option Nat := digitsValAux l false 0

/-- Python `int(str)`: strip whitespace, optional sign, decimal digits;
a `ValueError` is modelled as `Except.error ()`. -/
def parsePyInt (l : List Char) : Except Unit Int :=
  let t := pyStrip l
  let r : Option Int :=
    match t with
    | '+' :: rest => (digitsVal rest).map (fun n => (n : Int))
    | '-' :: rest => (digitsVal rest).map (fun n => -(n : Int))
    | _ => (digitsVal t).map (fun n => (n : Int))
  match r with
  | some v => .ok v
  | none => .error ()

/-- Value of a plain digit run (used for float mantissa/exponent digits). -/
def natOfDigits (l : List Char) : Nat :=
  l.foldl (fun a c => a * 10 + (c.toNat - 48)) 0

/-- Python `int(float(s))` for finite decimal literals (optional sign,
optional fraction, optional exponent), truncating toward zero, with
`ValueError` modelled as `none` — the shape of the
`try: int(float(ordinal)) except ValueError: pass` block in
`series_enrichment.get_series_info_for_entity`.  Infinity/NaN literals and
underscore grouping are outside the model. -/
def parseFloatTrunc (l : List Char) : Option Int :=
  let t := pyStrip l
  let sg : Int := match t with | '-' :: _ => -1 | _ => 1
  let t1 : List Char := match t with
    | '+' :: r => r
    | '-' :: r => r
    | _ => t
  let ip := t1.takeWhile Char.isDigit
  let r1 := t1.dropWhile Char.isDigit
  let fr : List Char × List Char :=
    match r1 with
    | '.' :: r => (r.takeWhile Char.isDigit, r.dropWhile Char.isDigit)
    | _ => ([], r1)
  let fp := fr.1
  let r2 := fr.2
  if ip.isEmpty && fp.isEmpty then none
  else
    let ex : Option (Int × List Char) :=
      match r2 with
      | 'e' :: r | 'E' :: r =>
        (match r with
         | '+' :: rr =>
           if (rr.takeWhile Char.isDigit).isEmpty then none
           else some ((natOfDigits (rr.takeWhile Char.isDigit) : Int),
                      rr.dropWhile Char.isDigit)
         | '-' :: rr =>
           if (rr.takeWhile Char.isDigit).isEmpty then none
           else some (-(natOfDigits (rr.takeWhile Char.isDigit) : Int),
                      rr.dropWhile Char.isDigit)
         | _ =>
           if (r.takeWhile Char.isDigit).isEmpty then none
           else some ((natOfDigits (r.takeWhile Char.isDigit) : Int),
                      r.dropWhile Char.isDigit))
      | _ => some (0, r2)
    match ex with
    | none => none
    | some (e, rest) =>
      if ¬ rest.isEmpty then none
      else
        let d := natOfDigits (ip ++ fp)
        let ee : Int := e - (fp.length : Int)
        let mag : Nat :=
          if 0 ≤ ee then d * 10 ^ ee.toNat else d / 10 ^ (-ee).toNat
        some (sg * (mag : Int))

/-- Association-list model of a Python `dict`: assignment `m[k] = v` updates in
place when the key exists and appends otherwise. -/
def dictInsert {α : Type} (k : List Char) (v : α) :
    List (List Char × α) → List (List Char × α)
  | [] => [(k, v)]
  | (k0, v0) :: r =>
    if k0 = k then (k0, v) :: r else (k0, v0) :: dictInsert k v r

/-- `dict.get(k)` / `k in dict`. -/
def dictGet {α : Type} (m : List (List Char × α)) (k : List Char) : Option α :=
  match m with
  | [] => none
  | (k0, v) :: r => if k0 = k then some v else dictGet r k

/-- Python `str.startswith("Q")`. -/
def startsWithQ : List Char → Bool
  | 'Q' :: _ => true
  | _ => false

/-- Raw outcome of one SPARQL request: transport/timeout failure, a payload
that `response.json()` cannot parse, or a parsed list of result bindings. -/
inductive NetResp (β : Type) where
  | transportError
  | malformedPayload
  | okPayload (bindings : List β)
deriving DecidableEq

namespace Wikidata

/-- Series link produced by `wikidata.py` (dataclass `SeriesInfo`). -/
structure SeriesInfo where
  wikidata_id : Option (List Char)
  series_name : List Char
  series_position : Option Int
deriving DecidableEq

/-- One SPARQL result binding, with each projection `result.get(x, {}).get("value")`
modelled as an optional string. -/
structure Binding where
  itemValue : Option (List Char) := none
  seriesLabel : Option (List Char) := none
  position : Option (List Char) := none
  titleValue : Option (List Char) := none
  isbnValue : Option (List Char) := none
deriving DecidableEq

/-- The ordinal computation `int(position_str) if position_str else None` in
`_parse_series_result`; `int` may raise `ValueError`, modelled as
`Except.error ()`. -/
def parsePositionField (r : Binding) : Except Unit (Option Int) :=
  match r.position with
  | some p => if p.isEmpty then .ok none else (parsePyInt p).map some
  | none => .ok none

/-- `wikidata._parse_series_result`: the Confidence Filter of `wikidata.py`.
A `ValueError` raised by the ordinal parse propagates; otherwise the candidate
is accepted only when the series label is present, non-empty and does not
start with the character `Q`. -/
def parse_series_result (r : Binding) : Except Unit (Option SeriesInfo) :=
  let book_uri := r.itemValue.getD []
  let wid : Option (List Char) :=
    if book_uri.isEmpty then none else some (lastSlashComponent book_uri)
  match parsePositionField r with
  | .error e => .error e
  | .ok pos =>
    match r.seriesLabel with
    | some sn =>
      if !sn.isEmpty && !startsWithQ sn then
        .ok (some { wikidata_id := wid, series_name := sn, series_position := pos })
      else .ok none
    | none => .ok none

/-- Shared shape of the single-result SPARQL helpers: take `bindings[0]` when
non-empty; every failure (transport, malformed payload, parse error) is caught
by the surrounding handler and becomes `none`. -/
def firstBindingResult (resp : NetResp Binding) : Option SeriesInfo :=
  match resp with
  | .transportError => none
  | .malformedPayload => none
  | .okPayload [] => none
  | .okPayload (b :: _) =>
    match parse_series_result b with
    | .error _ => none
    | .ok r => r

/-- `wikidata._query_by_exact_title` applied to the response of its network
call (`except Exception` absorbs every failure). -/
def query_by_exact_title (resp : NetResp Binding) : Option SeriesInfo :=
  firstBindingResult resp

/-- `wikidata._query_by_alt_label`, identical handling. -/
def query_by_alt_label (resp : NetResp Binding) : Option SeriesInfo :=
  firstBindingResult resp

/-- `wikidata._get_series_for_entity`, identical handling. -/
def get_series_for_entity (resp : NetResp Binding) : Option SeriesInfo :=
  firstBindingResult resp

/-- Response of the `wbsearchentities` call inside `wikidata._search_wikidata`;
the blanket `except Exception` there makes all failures equivalent. -/
inductive SearchResponse where
  | failure
  | okIds (ids : List (List Char))
deriving DecidableEq

/-- The entity-checking loop of `wikidata._search_wikidata`: first entity whose
series lookup yields a result. -/
def firstSeriesHit (entNet : List Char → NetResp Binding) :
    List (List Char) → Option SeriesInfo
  | [] => none
  | q :: qs =>
    match get_series_for_entity (entNet q) with
    | some r => some r
    | none => firstSeriesHit entNet qs

/-- `wikidata._search_wikidata`: fuzzy entity search (title plus author when
present) followed by per-entity series lookups. -/
def search_wikidata (searchNet : List Char → SearchResponse)
    (entNet : List Char → NetResp Binding)
    (title : List Char) (author : Option (List Char)) : Option SeriesInfo :=
  let q := match author with
    | some a => title ++ [' '] ++ a
    | none => title
  match searchNet q with
  | .failure => none
  | .okIds ids => firstSeriesHit entNet ids

/-- An outbound lookup issued by the per-request cascade. -/
inductive LookupEvent where
  | exactLabel (v : List Char)
  | altLabel (v : List Char)
  | searchCall (q : List Char)
deriving DecidableEq

/-- The per-variant loop of `wikidata.query_wikidata_by_title`: for each title
variation, the exact-label lookup and then the alternate-label lookup; first
result wins.  The second component records the lookups actually issued, in
order. -/
def titleCascadeAux (exactNet altNet : List Char → NetResp Binding) :
    List (List Char) → Option SeriesInfo × List LookupEvent
  | [] => (none, [])
  | v :: vs =>
    match query_by_exact_title (exactNet v) with
    | some r => (some r, [.exactLabel v])
    | none =>
      match query_by_alt_label (altNet v) with
      | some r => (some r, [.exactLabel v, .altLabel v])
      | none =>
        let rest := titleCascadeAux exactNet altNet vs
        (rest.1, .exactLabel v :: .altLabel v :: rest.2)

/-- `wikidata.query_wikidata_by_title`: case-convert, generate variations, run
the per-variant cascade, and fall back to the fuzzy search. -/
def query_wikidata_by_title (exactNet altNet : List Char → NetResp Binding)
    (searchNet : List Char → SearchResponse)
    (entNet : List Char → NetResp Binding)
    (title : List Char) (author : Option (List Char)) :
    Option SeriesInfo × List LookupEvent :=
  let tc := to_title_case title
  let vars := get_title_variations tc
  match titleCascadeAux exactNet altNet vars with
  | (some r, tr) => (some r, tr)
  | (none, tr) =>
    let q := match author with
      | some a => tc ++ [' '] ++ a
      | none => tc
    (search_wikidata searchNet entNet tc author, tr ++ [.searchCall q])

/-- The two ISBN lookup properties of the SPARQL queries. -/
inductive IsbnProp where
  | p212
  | p957
deriving DecidableEq

/-- `isbn.replace("-", "").strip()`. -/
def cleanIsbn (isbn : List Char) : List Char :=
  pyStrip (isbn.filter (fun c => c ≠ '-'))

/-- `wikidata.query_wikidata_by_isbn`: empty input and cleaned lengths other
than 13 and 10 return `None` without any lookup; otherwise the corresponding
ISBN property is queried and all call failures are caught to `None`. -/
def query_wikidata_by_isbn (net : IsbnProp → List Char → NetResp Binding)
    (isbn : List Char) : Option SeriesInfo :=
  if isbn.isEmpty then none
  else
    let clean := cleanIsbn isbn
    if clean.length = 13 then firstBindingResult (net .p212 clean)
    else if clean.length = 10 then firstBindingResult (net .p957 clean)
    else none

/-- `variant.replace('"', '\\"').replace("\x27", "\\\x27")`. -/
def escapeQuotes (l : List Char) : List Char :=
  l.flatMap (fun c =>
    if c = '"' then ['\\', '"']
    else if c = '\x27' then ['\\', '\x27']
    else [c])

/-- One entry of the batch `VALUES` clause: `f'"{clean}"@en'`. -/
def quotedValueEn (v : List Char) : List Char :=
  '"' :: (escapeQuotes v ++ chars "\x22@en")

/-- The `values_parts` list built by `query_wikidata_batch_by_title`: every
variation of every title, in order, with no deduplication. -/
def titleBatchValues (titles : List (List Char)) : List (List Char) :=
  titles.flatMap (fun t =>
    (get_title_variations (to_title_case t)).map quotedValueEn)

/-- The `title_map` dict of `query_wikidata_batch_by_title`:
`title_map[variant.lower()] = title` for every variation of every title, so a
later title overwrites an earlier one on a shared key. -/
def titleBatchMap (titles : List (List Char)) : List (List Char × List Char) :=
  titles.foldl (fun m t =>
    (get_title_variations (to_title_case t)).foldl
      (fun m2 v => dictInsert (lowerL v) t m2) m) []

/-- The result loop of `query_wikidata_batch_by_title` over the response
bindings: keep a result only when the mapped-back title has no entry yet
(`if original_title not in results`); a `ValueError` from
`_parse_series_result` propagates out of the loop. -/
def applyTitleResultsAux (tmap : List (List Char × List Char)) :
    List Binding → List (List Char × SeriesInfo) →
    Except Unit (List (List Char × SeriesInfo))
  | [], res => .ok res
  | b :: bs, res =>
    let title := b.titleValue.getD []
    let labelOk : Bool :=
      match b.seriesLabel with
      | some sn => !sn.isEmpty && !startsWithQ sn
      | none => false
    if title.isEmpty || !labelOk then applyTitleResultsAux tmap bs res
    else
      let orig := (dictGet tmap (lowerL title)).getD title
      match dictGet res orig with
      | some _ => applyTitleResultsAux tmap bs res
      | none =>
        match parse_series_result b with
        | .error e => .error e
        | .ok none => applyTitleResultsAux tmap bs res
        | .ok (some info) => applyTitleResultsAux tmap bs (dictInsert orig info res)

/-- `wikidata.query_wikidata_batch_by_title`: one batched query over all
variant values; any caught failure yields the empty mapping. -/
def query_wikidata_batch_by_title (net : List (List Char) → NetResp Binding)
    (titles : List (List Char)) : List (List Char × SeriesInfo) :=
  if titles.isEmpty then []
  else
    match net (titleBatchValues titles) with
    | .transportError => []
    | .malformedPayload => []
    | .okPayload bs =>
      match applyTitleResultsAux (titleBatchMap titles) bs [] with
      | .ok d => d
      | .error _ => []

/-- One entry of an ISBN batch `VALUES` clause: `f'"{clean_isbn}"'`. -/
def quotedValue (v : List Char) : List Char := '"' :: (v ++ ['"'])

/-- The planning loop of `query_wikidata_batch_by_isbn`: cleaned ISBNs are
recorded in `isbn_to_key` (overwriting on duplicates) and appended, without
deduplication, to the ISBN-13 or ISBN-10 `VALUES` list by cleaned length;
other lengths are dropped from both lists. -/
def isbnBatchPlan (isbnList : List (List Char × List Char)) :
    List (List Char) × List (List Char) × List (List Char × List Char) :=
  isbnList.foldl (fun acc p =>
    let clean := cleanIsbn p.1
    let m := dictInsert clean p.2 acc.2.2
    if clean.length = 13 then (acc.1 ++ [quotedValue clean], acc.2.1, m)
    else if clean.length = 10 then (acc.1, acc.2.1 ++ [quotedValue clean], m)
    else (acc.1, acc.2.1, m)) ([], [], [])

/-- The result loop of `query_wikidata_batch_by_isbn` over one response:
`results[key] = info` unconditionally, so a later accepted result for the same
key overwrites an earlier one; an exception from `_parse_series_result` is
caught by the surrounding `except Exception`, keeping the results accumulated
so far. -/
def processIsbnBindings (ikmap : List (List Char × List Char)) :
    List Binding → List (List Char × SeriesInfo) → List (List Char × SeriesInfo)
  | [], res => res
  | b :: bs, res =>
    let isbn := b.isbnValue.getD []
    match dictGet ikmap isbn with
    | none => processIsbnBindings ikmap bs res
    | some key =>
      match parse_series_result b with
      | .error _ => res
      | .ok none => processIsbnBindings ikmap bs res
      | .ok (some info) => processIsbnBindings ikmap bs (dictInsert key info res)

/-- `wikidata.query_wikidata_batch_by_isbn`: the ISBN-13 query then the
ISBN-10 query, sharing one results dict; each query's failure keeps the
results accumulated so far. -/
def query_wikidata_batch_by_isbn
    (net13 net10 : List (List Char) → NetResp Binding)
    (isbnList : List (List Char × List Char)) : List (List Char × SeriesInfo) :=
  if isbnList.isEmpty then []
  else
    let plan := isbnBatchPlan isbnList
    let r1 : List (List Char × SeriesInfo) :=
      if plan.1.isEmpty then []
      else
        match net13 plan.1 with
        | .transportError => []
        | .malformedPayload => []
        | .okPayload bs => processIsbnBindings plan.2.2 bs []
    if plan.2.1.isEmpty then r1
    else
      match net10 plan.2.1 with
      | .transportError => r1
      | .malformedPayload => r1
      | .okPayload bs => processIsbnBindings plan.2.2 bs r1

end Wikidata

namespace SeriesEnrichment

/-- In `re.sub(r'\s*:\s*a novel.*$', '', title, flags=re.IGNORECASE)`: the part
remaining after matching `\s*:\s*a novel` from index `i`, if that much
matches. -/
def colonNovelRestAt (l : List Char) (i : Nat) : Option (List Char) :=
  match (l.drop i).dropWhile isPySpace with
  | ':' :: r => dropPrefixCI (chars "a novel") (r.dropWhile isPySpace)
  | _ => none

/-- Whether the whole pattern `\s*:\s*a novel.*$` matches at index `i`: after
`a novel`, the dot cannot cross a newline and `$` holds at the end of the
string or before a final newline. -/
def matchColonNovelAt (l : List Char) (i : Nat) : Bool :=
  match colonNovelRestAt l i with
  | some rest =>
    decide ('\n' ∉ rest) ||
    (decide (rest.getLast? = some '\n') && decide ('\n' ∉ rest.dropLast))
  | none => false

/-- `re.sub(r'\s*:\s*a novel.*$', '', title, flags=re.IGNORECASE)`: delete the
leftmost match (which runs to the end of the string, except that a `$` before
a final newline leaves that newline in place). -/
def colonNovelSub (l : List Char) : List Char :=
  match (List.range l.length).find? (fun i => matchColonNovelAt l i) with
  | some i =>
    match colonNovelRestAt l i with
    | some rest => l.take i ++ (if '\n' ∈ rest then ['\n'] else [])
    | none => l
  | none => l

/-- Scan for the closing `')'` of `\(.*?\)\s*` (non-greedy dot, not crossing a
newline), returning the input after the parenthetical and the following
greedy whitespace run. -/
def afterCloseWS : List Char → Option (List Char)
  | [] => none
  | ')' :: r => some (r.dropWhile isPySpace)
  | '\n' :: _ => none
  | _ :: r => afterCloseWS r

/-- Attempt to match `\s*\(.*?\)\s*` at the head of `l`. -/
def tryParenSpanMatch (l : List Char) : Option (List Char) :=
  match l.dropWhile isPySpace with
  | '(' :: rest => afterCloseWS rest
  | _ => none

/-- `re.sub(r'\s*\(.*?\)\s*', ' ', title)`: replace every non-overlapping
match, scanning left to right; fuel is the input length (each step consumes at
least one character). -/
def parenSubAux : Nat → List Char → List Char
  | 0, l => l
  | _ + 1, [] => []
  | n + 1, c :: cs =>
    match tryParenSpanMatch (c :: cs) with
    | some rest => ' ' :: parenSubAux n rest
    | none => c :: parenSubAux n cs

def parenSubSpace (l : List Char) : List Char := parenSubAux l.length l

/-- The regex class `\w` (ASCII model: letters, digits, underscore). -/
def isWordChar (c : Char) : Bool := c.isAlphanum || c = '_'

/-- `re.sub(r'[^\w\s]', ' ', title)`. -/
def punctToSpace (l : List Char) : List Char :=
  l.map (fun c => if isWordChar c || isPySpace c then c else ' ')

/-- `re.sub(r'\s+', ' ', title).strip()`: words joined by single spaces. -/
def collapseWS (l : List Char) : List Char :=
  List.intercalate [' '] (Wikidata.splitWS l)

/-- Python `t.rsplit(' ', 1)[0]`: everything before the last space character,
or the whole string when it has no space. -/
def rsplitLastSpace (l : List Char) : List Char :=
  let suf := l.reverse.takeWhile (fun c => c ≠ ' ')
  if suf.length = l.length then l else l.take (l.length - suf.length - 1)

/-- `series_enrichment.normalize_title`: lowercase, drop an `: a novel`
subtitle, replace parentheticals and punctuation by spaces, collapse
whitespace, and truncate results longer than 50 characters at the last space
within the first 50 characters. -/
def normalize_title (l : List Char) : List Char :=
  let t := collapseWS (punctToSpace (parenSubSpace (colonNovelSub (lowerL l))))
  if t.length > 50 then rsplitLastSpace (t.take 50) else t

/-- The tuple built by `series_enrichment.get_series_info_for_entity` from an
accepted binding: `(series_label, series_id, ordinal_int, item_id)`. -/
structure SETuple where
  series_label : List Char
  series_id : List Char
  ordinal : Option Int
  item_id : List Char
deriving DecidableEq

/-- One SPARQL result binding of `series_enrichment`. -/
structure SEBinding where
  itemValue : Option (List Char) := none
  series : Option (List Char) := none
  seriesLabel : Option (List Char) := none
  ordinal : Option (List Char) := none
deriving DecidableEq

/-- The ordinal computation of `get_series_info_for_entity`: `int(float(o))`
guarded by `if ordinal:`, with `ValueError` silently dropped
(`except ValueError: pass`). -/
def parseOrdinalField (ov : Option (List Char)) : Option Int :=
  match ov with
  | some o => if o.isEmpty then none else parseFloatTrunc o
  | none => none

/-- The parsing-and-filtering tail of `get_series_info_for_entity`: the label
(defaulting to the empty string) is rejected exactly when it starts with `Q`
followed by one or more characters that are all digits; an unparseable ordinal
is silently dropped. -/
def parseEntitySeriesResult (r : SEBinding) : Option SETuple :=
  let series_label := r.seriesLabel.getD []
  let series_id := lastSlashComponent (r.series.getD [])
  let item_id := lastSlashComponent (r.itemValue.getD [])
  if startsWithQ series_label && !(series_label.drop 1).isEmpty &&
      (series_label.drop 1).all Char.isDigit then
    none
  else
    some { series_label := series_label, series_id := series_id,
           ordinal := parseOrdinalField r.ordinal, item_id := item_id }

/-- `series_enrichment.get_series_info_for_entity` applied to the response of
its SPARQL call: only `requests.RequestException` is caught there, so a
malformed payload (a `ValueError` from `response.json()`) propagates as an
exception. -/
def get_series_info_for_entity (resp : NetResp SEBinding) :
    Except Unit (Option SETuple) :=
  match resp with
  | .transportError => .ok none
  | .malformedPayload => .error ()
  | .okPayload [] => .ok none
  | .okPayload (b :: _) => .ok (parseEntitySeriesResult b)

/-- Response of the `wbsearchentities` call in
`series_enrichment.search_wikidata_entities`. -/
inductive SearchResp where
  | transportError
  | malformedPayload
  | okIds (ids : List (List Char))
deriving DecidableEq

/-- `series_enrichment.search_wikidata_entities`: the search text is the
normalized title; `requests.RequestException` yields `[]`, while a malformed
payload raises. -/
def search_wikidata_entities (searchNet : List Char → SearchResp)
    (title : List Char) : Except Unit (List (List Char)) :=
  match searchNet (normalize_title title) with
  | .transportError => .ok []
  | .malformedPayload => .error ()
  | .okIds ids => .ok ids

/-- `series_enrichment.SeriesInfo`. -/
structure SeriesInfo where
  title : List Char
  author : List Char
  series_name : List Char
  series_order : Option Int
  wikidata_book_id : List Char
  wikidata_series_id : List Char
deriving DecidableEq

/-- The candidate-entity loop of `query_wikidata_for_series`: try each entity
until one yields series information; an exception from
`get_series_info_for_entity` propagates, abandoning the remaining entities. -/
def tryEntities (entNet : List Char → NetResp SEBinding) :
    List (List Char) → Except Unit (Option SETuple)
  | [] => .ok none
  | q :: qs => do
    match ← get_series_info_for_entity (entNet q) with
    | some t => pure (some t)
    | none => tryEntities entNet qs

/-- `series_enrichment.query_wikidata_for_series`: search for candidates, then
try each candidate until one has series information. -/
def query_wikidata_for_series (searchNet : List Char → SearchResp)
    (entNet : List Char → NetResp SEBinding)
    (title author : List Char) : Except Unit (Option SeriesInfo) := do
  let ids ← search_wikidata_entities searchNet title
  if ids.isEmpty then pure none
  else
    match ← tryEntities entNet ids with
    | some t =>
      pure (some { title := title, author := author,
                   series_name := t.series_label, series_order := t.ordinal,
                   wikidata_book_id := t.item_id,
                   wikidata_series_id := t.series_id })
    | none => pure none

/-- The counters of `enrich_books_with_series`. -/
structure Stats where
  processed : Nat := 0
  found_series : Nat := 0
  skipped : Nat := 0
  errors : Nat := 0
deriving DecidableEq

/-- The per-book loop of `enrich_books_with_series`: already-enriched books
are skipped; each remaining book is resolved inside a
`try ... except Exception` that counts a raised exception as an error and
continues with the next book. -/
def enrichLoop (existing : List (List Char × List Char))
    (resolver : List Char × List Char → Except Unit (Option SeriesInfo)) :
    List (List Char × List Char) → Stats → Stats
  | [], st => st
  | bk :: rest, st =>
    if bk ∈ existing then
      enrichLoop existing resolver rest { st with skipped := st.skipped + 1 }
    else
      match resolver bk with
      | .error _ =>
        enrichLoop existing resolver rest { st with errors := st.errors + 1 }
      | .ok (some _) =>
        enrichLoop existing resolver rest
          { st with processed := st.processed + 1,
                    found_series := st.found_series + 1 }
      | .ok none =>
        enrichLoop existing resolver rest { st with processed := st.processed + 1 }

end SeriesEnrichment

/-! ### Helper lemmas -/

theorem dropWhile_twice {α : Type} (p : α → Bool) (l : List α) :
    List.dropWhile p (List.dropWhile p l) = List.dropWhile p l := by
  induction l with
  | nil => rfl
  | cons a t ih =>
    by_cases h : p a
    · simp [List.dropWhile_cons, h, ih]
    · simp [List.dropWhile_cons, h]

theorem dropTrailingWS_twice (l : List Char) :
    dropTrailingWS (dropTrailingWS l) = dropTrailingWS l := by
  unfold dropTrailingWS
  rw [List.reverse_reverse, dropWhile_twice]

theorem dropTrailingWS_append_eq (l : List Char) :
    dropTrailingWS l ++ (l.reverse.takeWhile isPySpace).reverse = l := by
  unfold dropTrailingWS
  rw [← List.reverse_append, List.takeWhile_append_dropWhile, List.reverse_reverse]

theorem dropWhile_eq_self_of_dropWhile_eq_self {α : Type} (p : α → Bool)
    {y z t : List α} (hy : List.dropWhile p y = y) (hzt : z ++ t = y) :
    List.dropWhile p z = z := by
  cases z with
  | nil => rfl
  | cons c r =>
    have hc : p c = false := by
      by_contra hc
      have hc2 : p c = true := by
        cases h : p c
        · exact absurd h hc
        · rfl
      subst hzt
      rw [List.cons_append, List.dropWhile_cons, if_pos hc2] at hy
      have := (List.dropWhile_sublist (l := r ++ t) p).length_le
      rw [hy] at this
      simp at this
    rw [List.dropWhile_cons, if_neg (by simp [hc])]

theorem pyStrip_idem (l : List Char) : pyStrip (pyStrip l) = pyStrip l := by
  unfold pyStrip
  have hy : List.dropWhile isPySpace (l.dropWhile isPySpace) =
      l.dropWhile isPySpace := dropWhile_twice _ _
  have hz : List.dropWhile isPySpace (dropTrailingWS (l.dropWhile isPySpace)) =
      dropTrailingWS (l.dropWhile isPySpace) :=
    dropWhile_eq_self_of_dropWhile_eq_self isPySpace hy
      (dropTrailingWS_append_eq (l.dropWhile isPySpace))
  rw [hz, dropTrailingWS_twice]

theorem dropTrailingWS_sublist (l : List Char) : (dropTrailingWS l).Sublist l := by
  unfold dropTrailingWS
  have h := (List.dropWhile_sublist (l := l.reverse) isPySpace).reverse
  rwa [List.reverse_reverse] at h

theorem pyStrip_sublist (l : List Char) : (pyStrip l).Sublist l := by
  unfold pyStrip
  exact (dropTrailingWS_sublist _).trans (List.dropWhile_sublist _)

theorem dropPrefixCI_sublist :
    ∀ (w l r : List Char), dropPrefixCI w l = some r → r.Sublist l := by
  intro w
  induction w with
  | nil =>
    intro l r h
    simp only [dropPrefixCI, Option.some.injEq] at h
    exact h ▸ List.Sublist.refl l
  | cons a as ih =>
    intro l r h
    cases l with
    | nil => simp [dropPrefixCI] at h
    | cons c cs =>
      simp only [dropPrefixCI] at h
      split at h
      · exact (ih cs r h).cons c
      · exact absurd h (by simp)

theorem articleTry_sublist {w l r : List Char}
    (h : Wikidata.articleTry w l = some r) : r.Sublist l := by
  unfold Wikidata.articleTry at h
  split at h
  case h_1 rest hrest =>
    split at h
    · split at h
      · simp only [Option.some.injEq] at h
        exact h ▸ (List.dropWhile_sublist _).trans (dropPrefixCI_sublist _ _ _ hrest)
      · exact absurd h (by simp)
    · exact absurd h (by simp)
  case h_2 => exact absurd h (by simp)

theorem stripLeadingArticle_sublist (l : List Char) :
    (Wikidata.stripLeadingArticle l).Sublist l := by
  unfold Wikidata.stripLeadingArticle
  split
  case h_1 r h => exact articleTry_sublist h
  case h_2 =>
    split
    case h_1 r h => exact articleTry_sublist h
    case h_2 =>
      split
      case h_1 r h => exact articleTry_sublist h
      case h_2 => exact List.Sublist.refl l

theorem stripTrailingParen_sublist (l : List Char) :
    (Wikidata.stripTrailingParen l).Sublist l := by
  unfold Wikidata.stripTrailingParen
  split
  · exact List.take_sublist _ _
  · exact List.Sublist.refl l

theorem colon_not_mem_normalize (l : List Char) :
    ':' ∉ Wikidata.normalize_title l := by
  intro hmem
  unfold Wikidata.normalize_title at hmem
  have h1 := (pyStrip_sublist _).subset hmem
  have h2 := (stripLeadingArticle_sublist _).subset h1
  have h3 := (stripTrailingParen_sublist _).subset h2
  have h4 := (pyStrip_sublist _).subset h3
  have h5 := List.mem_takeWhile_imp h4
  simp at h5

theorem dictGet_insert_self {α : Type} (k : List Char) (v : α)
    (m : List (List Char × α)) : dictGet (dictInsert k v m) k = some v := by
  induction m with
  | nil => simp [dictInsert, dictGet]
  | cons p r ih =>
    by_cases h : p.1 = k
    · simp [dictInsert, dictGet, h]
    · simp [dictInsert, dictGet, h, ih]

theorem dictGet_insert_ne {α : Type} {k0 k : List Char} (v : α)
    (m : List (List Char × α)) (hne : k0 ≠ k) :
    dictGet (dictInsert k0 v m) k = dictGet m k := by
  induction m with
  | nil => simp [dictInsert, dictGet, hne]
  | cons p r ih =>
    by_cases h : p.1 = k0
    · simp [dictInsert, dictGet, h, hne]
    · by_cases h2 : p.1 = k
      · simp [dictInsert, dictGet, h, h2, Ne.symm hne]
      · simp [dictInsert, dictGet, h, h2, ih]

theorem dictGet_insertFold (t : List Char) (vs : List (List Char))
    (m : List (List Char × List Char)) (k : List Char) :
    dictGet (vs.foldl (fun m2 v => dictInsert (lowerL v) t m2) m) k =
      if k ∈ vs.map lowerL then some t else dictGet m k := by
  induction vs generalizing m with
  | nil => simp
  | cons v rest ih =>
    simp only [List.foldl_cons, List.map_cons, List.mem_cons]
    rw [ih]
    by_cases h : k ∈ rest.map lowerL
    · simp [h]
    · by_cases h2 : k = lowerL v
      · simp [h, h2, dictGet_insert_self]
      · simp [h, h2, dictGet_insert_ne t m (fun he => h2 he.symm)]

theorem searchCall_not_mem_cascade (e a : List Char → NetResp Wikidata.Binding)
    (vs : List (List Char)) (q : List Char) :
    Wikidata.LookupEvent.searchCall q ∉ (Wikidata.titleCascadeAux e a vs).2 := by
  induction vs with
  | nil => simp [Wikidata.titleCascadeAux]
  | cons v rest ih =>
    cases h1 : Wikidata.query_by_exact_title (e v) with
    | some r => simp [Wikidata.titleCascadeAux, h1]
    | none =>
      cases h2 : Wikidata.query_by_alt_label (a v) with
      | some r => simp [Wikidata.titleCascadeAux, h1, h2]
      | none => simp [Wikidata.titleCascadeAux, h1, h2, ih]

theorem cascade_none_all (e a : List Char → NetResp Wikidata.Binding) :
    ∀ vs : List (List Char), (Wikidata.titleCascadeAux e a vs).1 = none →
      ∀ v ∈ vs, Wikidata.query_by_exact_title (e v) = none ∧
        Wikidata.query_by_alt_label (a v) = none := by
  intro vs
  induction vs with
  | nil => simp
  | cons v rest ih =>
    intro h w hw
    cases h1 : Wikidata.query_by_exact_title (e v) with
    | some r => rw [Wikidata.titleCascadeAux, h1] at h; simp at h
    | none =>
      cases h2 : Wikidata.query_by_alt_label (a v) with
      | some r => rw [Wikidata.titleCascadeAux, h1, h2] at h; simp at h
      | none =>
        rw [Wikidata.titleCascadeAux, h1, h2] at h
        rcases List.mem_cons.mp hw with hv | hv
        · exact hv ▸ ⟨h1, h2⟩
        · exact ih (by simpa using h) w hv

/-- The spec's unresolved-placeholder pattern: a single letter prefix followed
entirely by digits (one or more). -/
def specLetterThenDigits : List Char → Bool
  | [] => false
  | c :: rest => c.isAlpha && (!rest.isEmpty && rest.all Char.isDigit)

/-- The spec's acceptance condition for the Confidence Filter: a non-empty
series label that is not an unresolved-placeholder. -/
def specFilterAccepts (lbl : List Char) : Bool :=
  !lbl.isEmpty && !specLetterThenDigits lbl

/-- Whether a list contains two consecutive whitespace characters. -/
def hasConsecWS : List Char → Bool
  | [] => false
  | [_] => false
  | a :: b :: r => (isPySpace a && isPySpace b) || hasConsecWS (b :: r)

/-- Acceptance of a binding, for key `k` with link `i`, in the result loop of
`query_wikidata_batch_by_title`: the pre-checks pass, the reverse map sends
the bound title to `k`, and the Confidence Filter accepts. -/
def titleAccepted (tmap : List (List Char × List Char)) (b : Wikidata.Binding)
    (k : List Char) (i : Wikidata.SeriesInfo) : Prop :=
  ∃ sn, b.seriesLabel = some sn ∧ sn.isEmpty = false ∧ startsWithQ sn = false ∧
    (b.titleValue.getD []).isEmpty = false ∧
    (dictGet tmap (lowerL (b.titleValue.getD []))).getD (b.titleValue.getD []) = k ∧
    Wikidata.parse_series_result b = .ok (some i)

/-- Acceptance of a binding in the result loop of
`query_wikidata_batch_by_isbn`: the bound ISBN maps back to key `k` and the
Confidence Filter accepts with link `i`. -/
def isbnAccepted (ikmap : List (List Char × List Char)) (b : Wikidata.Binding)
    (k : List Char) (i : Wikidata.SeriesInfo) : Prop :=
  dictGet ikmap (b.isbnValue.getD []) = some k ∧
  Wikidata.parse_series_result b = .ok (some i)

/-! ### Claim theorems -/

theorem rsplitLastSpace_length_le (l : List Char) :
    (SeriesEnrichment.rsplitLastSpace l).length ≤ l.length := by
  simp only [SeriesEnrichment.rsplitLastSpace]
  split
  · exact le_refl _
  · exact (List.take_sublist _ _).length_le

/-- C10: the fuzzy-search path's title normalization
(`series_enrichment.normalize_title`) always returns a string of at most 50
characters; for inputs whose cleaned form is longer it silently truncates at
the last space within the first 50 characters, as in the concrete example. -/
theorem C10_fuzzy_normalize_truncates :
    (∀ l : List Char, (SeriesEnrichment.normalize_title l).length ≤ 50) ∧
    SeriesEnrichment.normalize_title
      (chars "aaaaaaaaaaaaaaaaaaaaaaaaaaaaaaaaaaaaaaaaaaaaaaaa bbbbbbb") =
      chars "aaaaaaaaaaaaaaaaaaaaaaaaaaaaaaaaaaaaaaaaaaaaaaaa" := by
  constructor
  · intro l
    simp only [SeriesEnrichment.normalize_title]
    split
    · exact le_trans (rsplitLastSpace_length_le _)
        (by rw [List.length_take]; exact min_le_left _ _)
    · omega
  · decide

/-- C9: ISBN classification in `query_wikidata_by_isbn`: after removing
hyphens and surrounding whitespace, a 13-character string is looked up via the
ISBN-13 property `P212`, a 10-character string via the ISBN-10 property
`P957`, and any other cleaned length yields `none` for every possible network
oracle (no lookup is issued); the three concrete scenarios classify as the
spec states. -/
theorem C9_isbn_classification :
    (∀ (net : Wikidata.IsbnProp → List Char → NetResp Wikidata.Binding)
       (isbn : List Char),
      ((Wikidata.cleanIsbn isbn).length = 13 →
        Wikidata.query_wikidata_by_isbn net isbn =
          Wikidata.firstBindingResult (net .p212 (Wikidata.cleanIsbn isbn))) ∧
      ((Wikidata.cleanIsbn isbn).length = 10 →
        Wikidata.query_wikidata_by_isbn net isbn =
          Wikidata.firstBindingResult (net .p957 (Wikidata.cleanIsbn isbn))) ∧
      ((Wikidata.cleanIsbn isbn).length ≠ 13 →
        (Wikidata.cleanIsbn isbn).length ≠ 10 →
        Wikidata.query_wikidata_by_isbn net isbn = none)) ∧
    Wikidata.cleanIsbn (chars "978-0-590-35342-7") = chars "9780590353427" ∧
    (Wikidata.cleanIsbn (chars "978-0-590-35342-7")).length = 13 ∧
    Wikidata.cleanIsbn (chars "0-590-35342-0") = chars "0590353420" ∧
    (Wikidata.cleanIsbn (chars "0-590-35342-0")).length = 10 ∧
    (Wikidata.cleanIsbn (chars "12345")).length = 5 := by
  refine ⟨?_, by decide, by decide, by decide, by decide, by decide⟩
  intro net isbn
  by_cases he : isbn.isEmpty
  · have hnil : isbn = [] := by
      cases isbn
      · rfl
      · simp [List.isEmpty] at he
    subst hnil
    exact ⟨fun h => absurd h (by decide), fun h => absurd h (by decide),
      fun _ _ => rfl⟩
  · refine ⟨fun h13 => ?_, fun h10 => ?_, fun h13 h10 => ?_⟩
    · simp [Wikidata.query_wikidata_by_isbn, he, h13]
    · have h13ne : ¬ (Wikidata.cleanIsbn isbn).length = 13 := by omega
      simp [Wikidata.query_wikidata_by_isbn, he, h13ne, h10]
    · simp [Wikidata.query_wikidata_by_isbn, he, h13, h10]

theorem C9_isbn_classification_witness :
    Wikidata.query_wikidata_by_isbn
      (fun _ _ => (NetResp.okPayload [] : NetResp Wikidata.Binding))
      (chars "978-0-590-35342-7") =
      Wikidata.firstBindingResult (NetResp.okPayload []) :=
  (C9_isbn_classification.1 _ _).1 (by decide)

/-- C7 counterexample: the output of `wikidata.normalize_title` on the input
`"x  y"` retains consecutive internal whitespace, refuting the claimed
whitespace-collapsing rule (d). -/
theorem C7_counterexample :
    hasConsecWS (Wikidata.normalize_title (chars "x  y")) = true ∧
    Wikidata.normalize_title (chars "x  y") ≠ chars "x y" := by decide

/-- C7 amended: `wikidata.normalize_title` truncates at the first colon,
strips a single trailing parenthetical group, strips a single leading article
and trims — but performs no internal-whitespace collapsing, so consecutive
whitespace survives; the claimed scenario still holds
(`normalize("The Hunt  (A Novel): A Thriller") = "Hunt"`), and no output ever
contains a colon. -/
theorem C7_amended :
    Wikidata.normalize_title (chars "The Hunt  (A Novel): A Thriller") =
      chars "Hunt" ∧
    Wikidata.normalize_title (chars "x  y") = chars "x  y" ∧
    ∀ l : List Char, ':' ∉ Wikidata.normalize_title l :=
  ⟨by decide, by decide, colon_not_mem_normalize⟩

theorem C7_amended_witness : ':' ∉ Wikidata.normalize_title (chars "a:b") :=
  C7_amended.2.2 (chars "a:b")

/-- C2 counterexample: `wikidata.normalize_title` is not idempotent — on
`"The An Apple"` one application strips only the outer article, and a second
application strips another. -/
theorem C2_counterexample :
    Wikidata.normalize_title (Wikidata.normalize_title (chars "The An Apple")) ≠
      Wikidata.normalize_title (chars "The An Apple") := by decide

/-- C2 amended: `wikidata.normalize_title` is idempotent exactly on those
inputs whose normalized form is a fixed point of the trailing-parenthetical
strip and of the leading-article strip; in general a second application can
strip a further leading article (see the counterexample). -/
theorem C2_amended (l : List Char)
    (hp : Wikidata.stripTrailingParen (Wikidata.normalize_title l) =
      Wikidata.normalize_title l)
    (ha : Wikidata.stripLeadingArticle (Wikidata.normalize_title l) =
      Wikidata.normalize_title l) :
    Wikidata.normalize_title (Wikidata.normalize_title l) =
      Wikidata.normalize_title l := by
  have hcolon : (Wikidata.normalize_title l).takeWhile (fun c => c ≠ ':') =
      Wikidata.normalize_title l := by
    rw [List.takeWhile_eq_self_iff]
    intro x hx
    simp only [decide_eq_true_eq]
    exact fun he => colon_not_mem_normalize l (he ▸ hx)
  have hstrip : pyStrip (Wikidata.normalize_title l) =
      Wikidata.normalize_title l := by
    conv_lhs => rw [Wikidata.normalize_title]
    rw [pyStrip_idem]
    rfl
  conv_lhs => rw [Wikidata.normalize_title]
  rw [hcolon, hstrip, hp, ha, hstrip]

theorem C2_amended_witness :
    Wikidata.normalize_title
        (Wikidata.normalize_title (chars "The Hunt: A Novel")) =
      Wikidata.normalize_title (chars "The Hunt: A Novel") :=
  C2_amended (chars "The Hunt: A Novel") (by decide) (by decide)

/-- C1 counterexample: the label `"Queen of Shadows"` is non-empty and not of
the letter-then-all-digits placeholder shape, so by the claim the Confidence
Filter must return a SeriesLink; `wikidata._parse_series_result` nevertheless
rejects it, because it rejects every label starting with `Q`. -/
theorem C1_counterexample :
    specFilterAccepts (chars "Queen of Shadows") = true ∧
    Wikidata.parse_series_result
      { seriesLabel := some (chars "Queen of Shadows") } = .ok none := by decide

/-- C1 amended: the two Confidence Filters differ from the claim.
`wikidata._parse_series_result` accepts exactly the candidates whose series
label is present, non-empty and does not start with `Q` at all (so genuine
names starting with `Q` are rejected); `series_enrichment` rejects exactly the
labels of the shape `Q` followed by one or more digits (and therefore accepts
empty labels); in both, a label `"Q12345"` is never accepted, whatever the
other fields. -/
theorem C1_amended :
    (∀ b : Wikidata.Binding, b.position = none →
      ((∃ i, Wikidata.parse_series_result b = .ok (some i)) ↔
        (∃ sn, b.seriesLabel = some sn ∧ sn ≠ [] ∧ startsWithQ sn = false))) ∧
    (∀ (b : Wikidata.Binding) (sn : List Char), b.seriesLabel = some sn →
      startsWithQ sn = true →
      ∀ i, Wikidata.parse_series_result b ≠ .ok (some i)) ∧
    (∀ bs : SeriesEnrichment.SEBinding,
      ((∃ t, SeriesEnrichment.parseEntitySeriesResult bs = some t) ↔
        (startsWithQ (bs.seriesLabel.getD []) &&
         !((bs.seriesLabel.getD []).drop 1).isEmpty &&
         ((bs.seriesLabel.getD []).drop 1).all Char.isDigit) = false)) ∧
    (∀ iv sv ov : Option (List Char),
      SeriesEnrichment.parseEntitySeriesResult
        { itemValue := iv, series := sv, seriesLabel := some (chars "Q12345"),
          ordinal := ov } = none) := by
  refine ⟨?_, ?_, ?_, ?_⟩
  · intro b hpos
    have hpf : Wikidata.parsePositionField b = .ok none := by
      simp [Wikidata.parsePositionField, hpos]
    cases hl : b.seriesLabel with
    | none => simp [Wikidata.parse_series_result, hpf, hl]
    | some sn =>
      by_cases h1 : sn.isEmpty
      · simp [Wikidata.parse_series_result, hpf, hl, h1,
          List.isEmpty_iff.mp h1]
      · by_cases h2 : startsWithQ sn
        · simp [Wikidata.parse_series_result, hpf, hl, h1, h2]
        · simp only [Wikidata.parse_series_result, hpf, hl]
          have hb : (!sn.isEmpty && !startsWithQ sn) = true := by
            simp [h1, h2]
          simp [hb, h1, h2]
          intro he
          exact absurd (he ▸ rfl) h1
  · intro b sn hl hQ i
    cases hpe : Wikidata.parsePositionField b with
    | error e => simp [Wikidata.parse_series_result, hpe]
    | ok pos => simp [Wikidata.parse_series_result, hpe, hl, hQ]
  · intro bs
    by_cases hc : (startsWithQ (bs.seriesLabel.getD []) &&
        !((bs.seriesLabel.getD []).drop 1).isEmpty &&
        ((bs.seriesLabel.getD []).drop 1).all Char.isDigit) = true
    · simp [SeriesEnrichment.parseEntitySeriesResult, hc]
    · simp only [Bool.not_eq_true] at hc
      simp [SeriesEnrichment.parseEntitySeriesResult, hc]
  · intro iv sv ov
    rfl

theorem C1_amended_witness :
    (∃ i, Wikidata.parse_series_result
      { seriesLabel := some (chars "Empyrean") } = .ok (some i)) ∧
    SeriesEnrichment.parseEntitySeriesResult
      { seriesLabel := some (chars "Q12345") } = none :=
  ⟨(C1_amended.1 _ rfl).mpr ⟨_, rfl, by decide, by decide⟩,
   C1_amended.2.2.2 none none none⟩

/-- C3 counterexample: a candidate with series label `"Empyrean"` and raw
ordinal `"two"` makes `wikidata._parse_series_result` raise (`int("two")` is a
`ValueError`), and the surrounding strategy handler then discards the whole
candidate, returning `none` instead of a SeriesLink with an absent position. -/
theorem C3_counterexample :
    Wikidata.parse_series_result
      { seriesLabel := some (chars "Empyrean"),
        position := some (chars "two") } = .error () ∧
    Wikidata.query_by_exact_title (.okPayload
      [{ seriesLabel := some (chars "Empyrean"),
         position := some (chars "two") }]) = none := by decide

/-- C3 amended: in `series_enrichment` an unparseable ordinal is indeed
dropped and the candidate still accepted with an absent ordinal; but in
`wikidata.py` a present, non-empty, unparseable position string makes
`_parse_series_result` raise, and every enclosing handler then rejects the
whole candidate (the strategy returns `none`). -/
theorem C3_amended :
    (∀ (bs : SeriesEnrichment.SEBinding) (o : List Char),
      bs.ordinal = some o → parseFloatTrunc o = none →
      (startsWithQ (bs.seriesLabel.getD []) &&
       !((bs.seriesLabel.getD []).drop 1).isEmpty &&
       ((bs.seriesLabel.getD []).drop 1).all Char.isDigit) = false →
      ∃ t, SeriesEnrichment.parseEntitySeriesResult bs = some t ∧
        t.ordinal = none) ∧
    (∀ (b : Wikidata.Binding) (p : List Char),
      b.position = some p → p.isEmpty = false → parsePyInt p = .error () →
      Wikidata.parse_series_result b = .error () ∧
      Wikidata.query_by_exact_title (.okPayload [b]) = none ∧
      Wikidata.query_by_alt_label (.okPayload [b]) = none) := by
  constructor
  · intro bs o ho hpf hc
    have hord : SeriesEnrichment.parseOrdinalField bs.ordinal = none := by
      rw [ho]
      by_cases hoe : o.isEmpty <;> simp [SeriesEnrichment.parseOrdinalField, hoe, hpf]
    unfold SeriesEnrichment.parseEntitySeriesResult
    dsimp only
    split
    next h => rw [hc] at h; exact absurd h Bool.false_ne_true
    next h => exact ⟨_, rfl, hord⟩
  · intro b p hp hpe hperr
    have hpf : Wikidata.parsePositionField b = .error () := by
      simp [Wikidata.parsePositionField, hp, hpe, hperr, Except.map]
    have hparse : Wikidata.parse_series_result b = .error () := by
      simp [Wikidata.parse_series_result, hpf]
    exact ⟨hparse,
      by simp [Wikidata.query_by_exact_title, Wikidata.firstBindingResult, hparse],
      by simp [Wikidata.query_by_alt_label, Wikidata.firstBindingResult, hparse]⟩

theorem C3_amended_witness :
    (∃ t, SeriesEnrichment.parseEntitySeriesResult
      { seriesLabel := some (chars "Nice Series"),
        ordinal := some (chars "third") } = some t ∧ t.ordinal = none) ∧
    Wikidata.parse_series_result
      { seriesLabel := some (chars "Empyrean"),
        position := some (chars "2nd") } = .error () :=
  ⟨C3_amended.1 _ _ rfl (by decide) (by decide),
   (C3_amended.2 _ _ rfl (by decide) (by decide)).1⟩

/-- C4 counterexample: in the ISBN batch path, two accepted results for the
same request key are processed and the final mapping holds the SECOND one
(`results[key] = info` overwrites), not the one processed first as claimed. -/
theorem C4_counterexample :
    Wikidata.query_wikidata_batch_by_isbn
      (fun _ => .okPayload
        [{ isbnValue := some (chars "9780590353427"),
           seriesLabel := some (chars "First Series"),
           itemValue := some (chars "http://www.wikidata.org/entity/Q1") },
         { isbnValue := some (chars "9780590353427"),
           seriesLabel := some (chars "Second Series"),
           itemValue := some (chars "http://www.wikidata.org/entity/Q2") }])
      (fun _ => .okPayload [])
      [(chars "978-0-590-35342-7", chars "Fourth Wing")] =
      [(chars "Fourth Wing",
        { wikidata_id := some (chars "Q2"),
          series_name := chars "Second Series",
          series_position := none })] := by decide

/-- C4 amended: the title-batch result loop is first-match-wins per request
key (the `original_title not in results` guard), but the ISBN-batch result
loop is last-match-wins: when two accepted candidates map to the same key,
it stores the one processed second. -/
theorem C4_amended :
    (∀ (tmap : List (List Char × List Char)) (b1 b2 : Wikidata.Binding)
       (k : List Char) (i1 i2 : Wikidata.SeriesInfo),
      titleAccepted tmap b1 k i1 → titleAccepted tmap b2 k i2 →
      Wikidata.applyTitleResultsAux tmap [b1, b2] [] = .ok [(k, i1)]) ∧
    (∀ (ikmap : List (List Char × List Char)) (b1 b2 : Wikidata.Binding)
       (k : List Char) (i1 i2 : Wikidata.SeriesInfo),
      isbnAccepted ikmap b1 k i1 → isbnAccepted ikmap b2 k i2 →
      Wikidata.processIsbnBindings ikmap [b1, b2] [] = [(k, i2)]) := by
  constructor
  · rintro tmap b1 b2 k i1 i2 ⟨sn1, hl1, he1, hq1, ht1, hm1, hp1⟩
      ⟨sn2, hl2, he2, hq2, ht2, hm2, hp2⟩
    simp [Wikidata.applyTitleResultsAux, hl1, hl2, he1, he2, hq1, hq2,
      ht1, ht2, hm1, hm2, hp1, hp2, dictGet, dictInsert]
  · rintro ikmap b1 b2 k i1 i2 ⟨hm1, hp1⟩ ⟨hm2, hp2⟩
    simp [Wikidata.processIsbnBindings, hm1, hm2, hp1, hp2, dictGet, dictInsert]

theorem C4_amended_witness :
    Wikidata.applyTitleResultsAux []
      [{ titleValue := some (chars "T"), seriesLabel := some (chars "Alpha") },
       { titleValue := some (chars "T"), seriesLabel := some (chars "Beta") }] [] =
      .ok [(chars "T",
        { wikidata_id := none, series_name := chars "Alpha",
          series_position := none })] ∧
    Wikidata.processIsbnBindings [(chars "i", chars "K")]
      [{ isbnValue := some (chars "i"), seriesLabel := some (chars "Alpha") },
       { isbnValue := some (chars "i"), seriesLabel := some (chars "Beta") }] [] =
      [(chars "K",
        { wikidata_id := none, series_name := chars "Beta",
          series_position := none })] :=
  ⟨C4_amended.1 [] _ _ (chars "T")
      { wikidata_id := none, series_name := chars "Alpha", series_position := none }
      { wikidata_id := none, series_name := chars "Beta", series_position := none }
      ⟨chars "Alpha", rfl, by decide, by decide, by decide, by decide, by decide⟩
      ⟨chars "Beta", rfl, by decide, by decide, by decide, by decide, by decide⟩,
   C4_amended.2 _ _ _ (chars "K")
      { wikidata_id := none, series_name := chars "Alpha", series_position := none }
      { wikidata_id := none, series_name := chars "Beta", series_position := none }
      ⟨by decide, by decide⟩ ⟨by decide, by decide⟩⟩

/-- C5 counterexample: the planner's lookup values for the pair
`["Fourth Wing", "fourth wing"]` are NOT deduplicated (the same value appears
twice), the reverse map holds only the later request key, and a match on the
shared value resolves only that later request — the first request gets
nothing. -/
theorem C5_counterexample :
    ¬ (Wikidata.titleBatchValues
        [chars "Fourth Wing", chars "fourth wing"]).Nodup ∧
    dictGet (Wikidata.titleBatchMap [chars "Fourth Wing", chars "fourth wing"])
      (chars "fourth wing") = some (chars "fourth wing") ∧
    Wikidata.query_wikidata_batch_by_title
      (fun _ => .okPayload
        [{ titleValue := some (chars "Fourth Wing"),
           seriesLabel := some (chars "The Empyrean"),
           itemValue := some (chars "http://www.wikidata.org/entity/Q116307898") }])
      [chars "Fourth Wing", chars "fourth wing"] =
      [(chars "fourth wing",
        { wikidata_id := some (chars "Q116307898"),
          series_name := chars "The Empyrean",
          series_position := none })] := by decide

/-- C5 amended: when two requests share a variant lookup value, the value is
dispatched once PER REQUEST (at least twice in the `VALUES` list, no
deduplication) and the reverse map holds exactly one originating key — the
key of the LAST request that produced the value; similarly the ISBN reverse
map keeps only the last key per cleaned ISBN. -/
theorem C5_amended (t1 t2 v : List Char)
    (h1 : v ∈ Wikidata.get_title_variations (Wikidata.to_title_case t1))
    (h2 : v ∈ Wikidata.get_title_variations (Wikidata.to_title_case t2)) :
    2 ≤ (Wikidata.titleBatchValues [t1, t2]).count (Wikidata.quotedValueEn v) ∧
    dictGet (Wikidata.titleBatchMap [t1, t2]) (lowerL v) = some t2 := by
  constructor
  · have hv : Wikidata.titleBatchValues [t1, t2] =
        (Wikidata.get_title_variations (Wikidata.to_title_case t1)).map
          Wikidata.quotedValueEn ++
        (Wikidata.get_title_variations (Wikidata.to_title_case t2)).map
          Wikidata.quotedValueEn := by
      simp [Wikidata.titleBatchValues]
    rw [hv, List.count_append]
    have c1 : 1 ≤ List.count (Wikidata.quotedValueEn v)
        ((Wikidata.get_title_variations (Wikidata.to_title_case t1)).map
          Wikidata.quotedValueEn) :=
      List.one_le_count_iff.mpr (List.mem_map_of_mem _ h1)
    have c2 : 1 ≤ List.count (Wikidata.quotedValueEn v)
        ((Wikidata.get_title_variations (Wikidata.to_title_case t2)).map
          Wikidata.quotedValueEn) :=
      List.one_le_count_iff.mpr (List.mem_map_of_mem _ h2)
    omega
  · simp only [Wikidata.titleBatchMap, List.foldl_cons, List.foldl_nil]
    rw [dictGet_insertFold]
    have hmem : lowerL v ∈
        (Wikidata.get_title_variations (Wikidata.to_title_case t2)).map lowerL :=
      List.mem_map_of_mem _ h2
    simp [hmem]

theorem C5_amended_witness :
    2 ≤ (Wikidata.titleBatchValues
        [chars "Fourth Wing", chars "fourth wing"]).count
        (Wikidata.quotedValueEn (chars "Fourth Wing")) ∧
    dictGet (Wikidata.titleBatchMap [chars "Fourth Wing", chars "fourth wing"])
      (lowerL (chars "Fourth Wing")) = some (chars "fourth wing") :=
  C5_amended _ _ _ (by decide) (by decide)

theorem titleCascadeAux_cons_exact (e a : List Char → NetResp Wikidata.Binding)
    (v : List Char) (vs : List (List Char)) (r : Wikidata.SeriesInfo)
    (h : Wikidata.query_by_exact_title (e v) = some r) :
    Wikidata.titleCascadeAux e a (v :: vs) = (some r, [.exactLabel v]) := by
  simp [Wikidata.titleCascadeAux, h]

/-- C6 counterexample: for the title `"Color Song"` the cascade issues the
alternate-label lookup for the first variant before the exact-label lookup for
the second variant; here the match is found by the exact-label strategy (on
the `"Colour Song"` variant), yet an alternate-label lookup has been
invoked — refuting "no alternate-label lookup is issued before the exact-label
strategy has been exhausted". -/
theorem C6_counterexample :
    (Wikidata.query_wikidata_by_title
      (fun v => if v = chars "Colour Song"
        then .okPayload [{ seriesLabel := some (chars "Discworld"),
                           itemValue := some (chars "http://www.wikidata.org/entity/Q1234") }]
        else .okPayload [])
      (fun _ => .okPayload []) (fun _ => .failure) (fun _ => .okPayload [])
      (chars "Color Song") none).1 =
      some { wikidata_id := some (chars "Q1234"),
             series_name := chars "Discworld", series_position := none } ∧
    Wikidata.LookupEvent.altLabel (chars "Color Song") ∈
      (Wikidata.query_wikidata_by_title
        (fun v => if v = chars "Colour Song"
          then .okPayload [{ seriesLabel := some (chars "Discworld"),
                             itemValue := some (chars "http://www.wikidata.org/entity/Q1234") }]
          else .okPayload [])
        (fun _ => .okPayload []) (fun _ => .failure) (fun _ => .okPayload [])
        (chars "Color Song") none).2 := by decide

/-- C6 amended: the cascade interleaves the exact-label and alternate-label
strategies per variant.  It does short-circuit at the first acceptable result
— an exact-label match on the first variant means exactly one lookup is ever
issued — and the fuzzy search is only invoked after every variant has failed
both the exact and the alternate lookup; but an alternate-label lookup for an
earlier variant may precede the exact-label lookup for a later variant. -/
theorem C6_amended :
    (∀ (exactNet altNet : List Char → NetResp Wikidata.Binding)
       (searchNet : List Char → Wikidata.SearchResponse)
       (entNet : List Char → NetResp Wikidata.Binding)
       (title : List Char) (author : Option (List Char))
       (r : Wikidata.SeriesInfo),
      Wikidata.query_by_exact_title (exactNet (Wikidata.to_title_case title)) =
        some r →
      Wikidata.query_wikidata_by_title exactNet altNet searchNet entNet
        title author =
        (some r, [.exactLabel (Wikidata.to_title_case title)])) ∧
    (∀ (exactNet altNet : List Char → NetResp Wikidata.Binding)
       (searchNet : List Char → Wikidata.SearchResponse)
       (entNet : List Char → NetResp Wikidata.Binding)
       (title : List Char) (author : Option (List Char)) (q : List Char),
      Wikidata.LookupEvent.searchCall q ∈
        (Wikidata.query_wikidata_by_title exactNet altNet searchNet entNet
          title author).2 →
      ∀ v ∈ Wikidata.get_title_variations (Wikidata.to_title_case title),
        Wikidata.query_by_exact_title (exactNet v) = none ∧
        Wikidata.query_by_alt_label (altNet v) = none) := by
  constructor
  · intro eN aN sN nN title author r h
    unfold Wikidata.query_wikidata_by_title
    dsimp only
    rw [show Wikidata.get_title_variations (Wikidata.to_title_case title) =
        Wikidata.to_title_case title ::
          Wikidata.variationSubsts (Wikidata.to_title_case title) from rfl,
      titleCascadeAux_cons_exact eN aN _ _ r h]
  · intro eN aN sN nN title author q hq v hv
    unfold Wikidata.query_wikidata_by_title at hq
    dsimp only at hq
    cases hc : Wikidata.titleCascadeAux eN aN
        (Wikidata.get_title_variations (Wikidata.to_title_case title)) with
    | mk res tr =>
      cases res with
      | some r =>
        rw [hc] at hq
        have hn := searchCall_not_mem_cascade eN aN
          (Wikidata.get_title_variations (Wikidata.to_title_case title)) q
        rw [hc] at hn
        exact absurd hq hn
      | none =>
        exact cascade_none_all eN aN _ (by rw [hc]) v hv

theorem C6_amended_witness :
    Wikidata.query_wikidata_by_title
      (fun _ => .okPayload [{ seriesLabel := some (chars "The Empyrean") }])
      (fun _ => .okPayload []) (fun _ => .failure) (fun _ => .okPayload [])
      (chars "Fourth Wing") none =
      (some { wikidata_id := none, series_name := chars "The Empyrean",
              series_position := none },
       [.exactLabel (Wikidata.to_title_case (chars "Fourth Wing"))]) :=
  C6_amended.1 _ _ _ _ _ _ _ (by decide)

/-- C8 counterexample: in `series_enrichment`, a malformed (unparseable)
response for the first candidate entity raises out of the per-entity lookup
and aborts the remaining candidates — the exception is not absorbed as "no
match" for that lookup; with the very same entity oracle, the second
candidate alone would have produced a series link. -/
theorem C8_counterexample :
    SeriesEnrichment.query_wikidata_for_series
      (fun _ => .okIds [chars "Q100", chars "Q200"])
      (fun q => if q = chars "Q200"
        then .okPayload [{ seriesLabel := some (chars "Nice Series"),
                           series := some (chars "http://www.wikidata.org/entity/Q9"),
                           itemValue := some (chars "http://www.wikidata.org/entity/Q200"),
                           ordinal := some (chars "3") }]
        else .malformedPayload)
      (chars "Some Book") (chars "An Author") = .error () ∧
    SeriesEnrichment.query_wikidata_for_series
      (fun _ => .okIds [chars "Q200"])
      (fun q => if q = chars "Q200"
        then .okPayload [{ seriesLabel := some (chars "Nice Series"),
                           series := some (chars "http://www.wikidata.org/entity/Q9"),
                           itemValue := some (chars "http://www.wikidata.org/entity/Q200"),
                           ordinal := some (chars "3") }]
        else .malformedPayload)
      (chars "Some Book") (chars "An Author") =
      .ok (some { title := chars "Some Book", author := chars "An Author",
                  series_name := chars "Nice Series", series_order := some 3,
                  wikidata_book_id := chars "Q200",
                  wikidata_series_id := chars "Q9" }) := by decide

/-- C8 amended: transport failures and well-formed-but-empty results are
absorbed as "no match" everywhere, and the `wikidata.py` strategy helpers
absorb malformed payloads too; in `series_enrichment` a transport failure is
absorbed but a malformed payload raises past the per-entity lookup (see the
counterexample), and is only caught by the per-book handler of the batch
loop, which counts it as an error and proceeds: the loop accounts for every
book, whatever the resolver does, and never raises to the caller. -/
theorem C8_amended :
    (Wikidata.query_by_exact_title .transportError = none ∧
     Wikidata.query_by_exact_title .malformedPayload = none ∧
     Wikidata.query_by_exact_title (.okPayload []) = none ∧
     Wikidata.query_by_alt_label .transportError = none ∧
     Wikidata.query_by_alt_label .malformedPayload = none ∧
     Wikidata.get_series_for_entity .transportError = none ∧
     Wikidata.get_series_for_entity .malformedPayload = none ∧
     SeriesEnrichment.get_series_info_for_entity .transportError = .ok none) ∧
    (∀ (existing : List (List Char × List Char))
       (resolver : List Char × List Char →
         Except Unit (Option SeriesEnrichment.SeriesInfo))
       (books : List (List Char × List Char)) (st : SeriesEnrichment.Stats),
      (SeriesEnrichment.enrichLoop existing resolver books st).processed +
      (SeriesEnrichment.enrichLoop existing resolver books st).skipped +
      (SeriesEnrichment.enrichLoop existing resolver books st).errors =
      st.processed + st.skipped + st.errors + books.length) := by
  refine ⟨⟨rfl, rfl, rfl, rfl, rfl, rfl, rfl, rfl⟩, ?_⟩
  intro ex res books st
  induction books generalizing st with
  | nil => simp [SeriesEnrichment.enrichLoop]
  | cons bk rest ih =>
    by_cases hm : bk ∈ ex
    · simp only [SeriesEnrichment.enrichLoop, if_pos hm]
      rw [ih]
      simp only [List.length_cons]
      omega
    · cases hr : res bk with
      | error e =>
        simp only [SeriesEnrichment.enrichLoop, if_neg hm, hr]
        rw [ih]
        simp only [List.length_cons]
        omega
      | ok v =>
        cases v with
        | some s =>
          simp only [SeriesEnrichment.enrichLoop, if_neg hm, hr]
          rw [ih]
          simp only [List.length_cons]
          omega
        | none =>
          simp only [SeriesEnrichment.enrichLoop, if_neg hm, hr]
          rw [ih]
          simp only [List.length_cons]
          omega
